import Mathlib

/-!
Verification of the live duplex media client (`src/services/liveClient.ts`)
and its PCM codec (`src/services/audioUtils.ts`).

Modelling conventions:
* Audio samples, clock times and durations are modelled as exact rationals
  (`ℚ`); the JavaScript source computes with IEEE doubles, but every property
  below is stated by the spec as exact real arithmetic.
* Byte buffers are `List ℕ` whose elements are byte values (< 256).
* The base64 leg of the transport (`btoa` / `atob` /
  `base64ToUint8Array`) is an exact bijection on byte strings, so the codec
  is modelled at the byte level: `float32ToB64PCM` is `btoa` applied to the
  little-endian byte image of `float32ToInt16`, and we model that byte image
  (`float32ToPCMBytes`).
* Fallible operations (a JavaScript exception, e.g. the `RangeError` thrown
  by `DataView.getInt16` on an out-of-bounds read) are modelled with
  `Option`: `none` is the thrown exception.
-/

namespace BlindEye

/-! ## PCM codec (`src/services/audioUtils.ts`) -/

/-- Truncation toward zero, the conversion JavaScript applies when a double
is stored into an `Int16Array` element (`ToInt16`: truncate, then wrap;
no wrap occurs in our use because the scaled value already lies in range). -/
def truncTowardZero (q : ℚ) : ℤ :=
  if q < 0 then ⌈q⌉ else ⌊q⌋

/-- `Math.max(-1, Math.min(1, x))` (`audioUtils.ts` line 51). -/
def clamp (x : ℚ) : ℚ :=
  max (-1) (min 1 x)

/-- One sample of `float32ToInt16` conversion inside `float32ToB64PCM`
(`audioUtils.ts` lines 49–54): clamp to [-1, 1], scale negatives by 0x8000
and non-negatives by 0x7FFF, store as a 16-bit integer. -/
def encodeSample (x : ℚ) : ℤ :=
  if clamp x < 0 then truncTowardZero (clamp x * 32768)
  else truncTowardZero (clamp x * 32767)

/-- `float32ToB64PCM`'s sample loop: the `Int16Array` contents. -/
def float32ToInt16 (xs : List ℚ) : List ℤ :=
  xs.map encodeSample

/-- Little-endian byte image of one signed 16-bit value, as laid out in the
`Int16Array` buffer that `float32ToB64PCM` serialises (two's complement,
low byte first). -/
def int16ToBytesLE (k : ℤ) : List ℕ :=
  let u := (k % 65536).toNat
  [u % 256, u / 256]

/-- The PCM byte payload produced by `float32ToB64PCM` before the final
`btoa` (which is an exact, invertible text armouring of these bytes). -/
def float32ToPCMBytes (xs : List ℚ) : List ℕ :=
  (float32ToInt16 xs).flatMap int16ToBytesLE

/-- `DataView.getInt16(off, true)` on two bytes: little-endian unsigned
assembly followed by two's-complement reinterpretation (the `% 256` keeps
the model total on arbitrary naturals; actual bytes are below 256). -/
def getInt16LE (b0 b1 : ℕ) : ℤ :=
  if b0 % 256 + 256 * (b1 % 256) < 32768 then ((b0 % 256 + 256 * (b1 % 256) : ℕ) : ℤ)
  else ((b0 % 256 + 256 * (b1 % 256) : ℕ) : ℤ) - 65536

/-- One sample of `decodeAudioData`'s loop (`audioUtils.ts` line 35):
normalise a 16-bit value by the asymmetric divisor. -/
def decodeSample (k : ℤ) : ℚ :=
  if k < 0 then (k : ℚ) / 32768 else (k : ℚ) / 32767

/-- The sample-reading loop of `decodeAudioData` (`audioUtils.ts` lines
31–36): `for (i = 0; i < numSamples; i++)` reading `getInt16(2*i, true)`
consumes the buffer two bytes at a time, and on a buffer of odd length the
final iteration (the lone trailing byte) makes `DataView.getInt16` read
past the end and throw a `RangeError` — modelled as `none`. -/
def decodeAudioDataLoop (bytes : List ℕ) : Option (List ℚ) :=
  match bytes with
  | [] => some []
  | [_] => none
  | b0 :: b1 :: rest =>
    (decodeAudioDataLoop rest).map (fun tail => decodeSample (getInt16LE b0 b1) :: tail)

/-- `decodeAudioData` (`audioUtils.ts` lines 20–39).  The source computes
`numSamples = byteLength / 2` with real division; `createBuffer`'s
unsigned-long argument conversion truncates it, and `createBuffer(1, 0,
sampleRate)` — reached when the buffer has fewer than two bytes — throws
`NotSupportedError` (a zero-length buffer is not supported). Otherwise the
read loop runs; both that exception and the loop's `RangeError` on an
odd-length buffer are `none`. -/
def decodeAudioData (bytes : List ℕ) : Option (List ℚ) :=
  if bytes.length / 2 = 0 then none
  else decodeAudioDataLoop bytes

/-! ### Codec lemmas -/

theorem clamp_mem (x : ℚ) : -1 ≤ clamp x ∧ clamp x ≤ 1 := by
  constructor
  · exact le_max_left _ _
  · exact max_le (by norm_num) (min_le_left _ _)

theorem clamp_of_mem (x : ℚ) (hlo : -1 ≤ x) (hhi : x ≤ 1) : clamp x = x := by
  unfold clamp
  rw [min_eq_right hhi, max_eq_right hlo]

theorem encodeSample_range (x : ℚ) :
    -32768 ≤ encodeSample x ∧ encodeSample x ≤ 32767 := by
  obtain ⟨hlo, hhi⟩ := clamp_mem x
  unfold encodeSample truncTowardZero
  by_cases hneg : clamp x < 0
  · rw [if_pos hneg, if_pos (by nlinarith : clamp x * 32768 < 0)]
    constructor
    · have h1 : ((-32768 : ℤ) : ℚ) ≤ clamp x * 32768 := by push_cast; nlinarith
      exact_mod_cast h1.trans (Int.le_ceil _)
    · have h2 : ⌈clamp x * 32768⌉ ≤ (0 : ℤ) :=
        Int.ceil_le.mpr (by push_cast; nlinarith)
      omega
  · push_neg at hneg
    rw [if_neg (not_lt.mpr hneg), if_neg (not_lt.mpr (by nlinarith : (0:ℚ) ≤ clamp x * 32767))]
    constructor
    · have h1 : ((0 : ℤ) : ℚ) ≤ clamp x * 32767 := by push_cast; nlinarith
      have h2 : (0 : ℤ) ≤ ⌊clamp x * 32767⌋ := Int.le_floor.mpr h1
      omega
    · have h3 : ⌊clamp x * 32767⌋ ≤ ⌊(32767 : ℚ)⌋ := Int.floor_le_floor (by nlinarith)
      have h4 : ⌊(32767 : ℚ)⌋ = 32767 := by norm_num
      omega

theorem int16ToBytesLE_eq (k : ℤ) :
    int16ToBytesLE k = [(k % 65536).toNat % 256, (k % 65536).toNat / 256] := rfl

theorem getInt16LE_int16ToBytesLE (k : ℤ) (hlo : -32768 ≤ k) (hhi : k ≤ 32767) :
    getInt16LE ((k % 65536).toNat % 256) ((k % 65536).toNat / 256) = k := by
  unfold getInt16LE
  split <;> omega

theorem decodeAudioDataLoop_block (k : ℤ) (hlo : -32768 ≤ k) (hhi : k ≤ 32767)
    (rest : List ℕ) :
    decodeAudioDataLoop (int16ToBytesLE k ++ rest) =
      (decodeAudioDataLoop rest).map (fun tail => decodeSample k :: tail) := by
  rw [int16ToBytesLE_eq]
  show (decodeAudioDataLoop rest).map _ = _
  rw [getInt16LE_int16ToBytesLE k hlo hhi]

/-- The read loop on the encoder's output always succeeds and yields the
per-sample quantisation of the input. -/
theorem decodeAudioDataLoop_float32ToPCMBytes (xs : List ℚ) :
    decodeAudioDataLoop (float32ToPCMBytes xs) =
      some (xs.map (fun x => decodeSample (encodeSample x))) := by
  induction xs with
  | nil => rfl
  | cons x xs ih =>
    have hr := encodeSample_range x
    simp only [float32ToPCMBytes, float32ToInt16, List.map_cons, List.flatMap_cons]
    rw [decodeAudioDataLoop_block _ hr.1 hr.2]
    simp only [float32ToPCMBytes, float32ToInt16] at ih
    rw [ih]
    rfl

theorem float32ToPCMBytes_length (xs : List ℚ) :
    (float32ToPCMBytes xs).length = 2 * xs.length := by
  induction xs with
  | nil => rfl
  | cons x xs ih =>
    have h2 : (int16ToBytesLE (encodeSample x)).length = 2 := rfl
    simp only [float32ToPCMBytes, float32ToInt16, List.map_cons, List.flatMap_cons,
      List.length_append, List.length_cons] at ih ⊢
    rw [h2, ih]
    omega

/-- Byte-level round trip: on a nonempty input (so that `createBuffer` is
given a nonzero length) decoding the encoder's output succeeds and yields
the per-sample quantisation of the input. -/
theorem decodeAudioData_float32ToPCMBytes (xs : List ℚ) (hne : xs ≠ []) :
    decodeAudioData (float32ToPCMBytes xs) =
      some (xs.map (fun x => decodeSample (encodeSample x))) := by
  have hlen : ¬ (float32ToPCMBytes xs).length / 2 = 0 := by
    rw [float32ToPCMBytes_length]
    cases xs with
    | nil => exact absurd rfl hne
    | cons y ys => simp
  unfold decodeAudioData
  rw [if_neg hlen]
  exact decodeAudioDataLoop_float32ToPCMBytes xs

/-- Per-sample quantisation error of the codec round trip. The negative
half-range quantises with step `1/32768`, the non-negative half-range with
step `1/32767`; the uniform bound is strictly below `1/32767`. -/
theorem decodeSample_encodeSample_close (x : ℚ) (hlo : -1 ≤ x) (hhi : x ≤ 1) :
    |decodeSample (encodeSample x) - x| < 1 / 32767 := by
  have hc : clamp x = x := clamp_of_mem x hlo hhi
  unfold encodeSample truncTowardZero
  rw [hc]
  by_cases hneg : x < 0
  · rw [if_pos hneg, if_pos (by nlinarith : x * 32768 < 0)]
    have h1 : (⌈x * 32768⌉ : ℚ) < x * 32768 + 1 := by
      exact_mod_cast Int.ceil_lt_add_one (x * 32768)
    have h2 : x * 32768 ≤ (⌈x * 32768⌉ : ℚ) := Int.le_ceil _
    unfold decodeSample
    by_cases hk0 : ⌈x * 32768⌉ < 0
    · rw [if_pos hk0]
      rw [abs_lt]
      constructor <;> nlinarith
    · rw [if_neg hk0]
      push_neg at hk0
      have hkz : ⌈x * 32768⌉ = 0 := by
        have hle : ⌈x * 32768⌉ ≤ 0 := Int.ceil_le.mpr (by push_cast; nlinarith)
        omega
      rw [hkz]
      rw [abs_lt]
      have h1' : (0 : ℚ) < x * 32768 + 1 := by
        rw [hkz] at h1
        exact_mod_cast h1
      constructor <;> [nlinarith; nlinarith]
  · push_neg at hneg
    rw [if_neg (not_lt.mpr hneg), if_neg (not_lt.mpr (by nlinarith : (0:ℚ) ≤ x * 32767))]
    have h1 : x * 32767 < (⌊x * 32767⌋ : ℚ) + 1 := by
      exact_mod_cast Int.lt_floor_add_one (x * 32767)
    have h2 : (⌊x * 32767⌋ : ℚ) ≤ x * 32767 := Int.floor_le _
    have hk0 : ¬ ⌊x * 32767⌋ < 0 := by
      push_neg
      exact Int.le_floor.mpr (by push_cast; nlinarith)
    unfold decodeSample
    rw [if_neg hk0]
    rw [abs_lt]
    constructor <;> nlinarith

theorem decodeAudioDataLoop_odd_fails :
    ∀ bytes : List ℕ, bytes.length % 2 = 1 → decodeAudioDataLoop bytes = none
  | [], h => by simp at h
  | [_], _ => rfl
  | b0 :: b1 :: rest, h => by
    have hr : rest.length % 2 = 1 := by
      simp only [List.length_cons] at h
      omega
    show (decodeAudioDataLoop rest).map _ = none
    rw [decodeAudioDataLoop_odd_fails rest hr]
    rfl

/-- `decodeAudioData` rejects every odd-length buffer: for the one-byte
buffer `createBuffer(1, 0, rate)` throws `NotSupportedError`, and for any
longer odd length the read loop runs `⌈byteLength / 2⌉` times and the last
iteration reads past the end of the buffer (`RangeError`) — both `none`. -/
theorem decodeAudioData_odd_fails (bytes : List ℕ) (h : bytes.length % 2 = 1) :
    decodeAudioData bytes = none := by
  unfold decodeAudioData
  split
  · rfl
  · exact decodeAudioDataLoop_odd_fails bytes h

/-! ## Claim C2 -/

/-- C2: the claim as frozen is false. The sample `2/65535 ∈ [-1, 1]` encodes
to the 16-bit value `0` (since `(2/65535)·32767 = 65534/65535 < 1` truncates
to `0`) and decodes back to `0`, at distance `2/65535 > 1/32768` from the
original: the non-negative half-range quantises with step `1/32767`, not
`1/32768`, so the round trip is not always within `1/32768`. Moreover, on
the empty sample sequence decoding the (empty) encoding fails outright —
`createBuffer(1, 0, sampleRate)` throws — instead of reproducing it. -/
theorem C2_counterexample :
    (-1 : ℚ) ≤ 2/65535 ∧ (2 : ℚ)/65535 ≤ 1 ∧
    decodeAudioData (float32ToPCMBytes [(2 : ℚ)/65535]) = some [0] ∧
    ¬ |(0 : ℚ) - 2/65535| ≤ 1/32768 ∧
    decodeAudioData (float32ToPCMBytes []) = none := by
  refine ⟨by norm_num, by norm_num, ?_, ?_, rfl⟩
  · rw [decodeAudioData_float32ToPCMBytes _ (by simp)]
    norm_num [encodeSample, clamp, truncTowardZero, decodeSample]
  · rw [abs_le]
    norm_num

/-- C2 (amended): encoding every sample of a nonempty sequence with values
in `[-1, 1]` (clamp, scale negatives by 32768 and non-negatives by 32767,
write signed 16-bit little-endian) and decoding (read signed 16-bit
little-endian, divide negatives by 32768 and non-negatives by 32767)
succeeds and reproduces every sample within `1/32767` — one quantisation
step of the non-negative scale — of its original value (for the empty
sequence decoding fails, since `createBuffer` rejects a zero-length
buffer). -/
theorem C2_roundtrip (xs : List ℚ) (hne : xs ≠ [])
    (hmem : ∀ x ∈ xs, -1 ≤ x ∧ x ≤ 1) :
    ∃ ys, decodeAudioData (float32ToPCMBytes xs) = some ys ∧
      ys.length = xs.length ∧
      ∀ i, (h1 : i < ys.length) → (h2 : i < xs.length) →
        |ys.get ⟨i, h1⟩ - xs.get ⟨i, h2⟩| < 1 / 32767 := by
  refine ⟨xs.map (fun x => decodeSample (encodeSample x)),
    decodeAudioData_float32ToPCMBytes xs hne, by simp, ?_⟩
  intro i h1 h2
  simp only [List.get_eq_getElem, List.getElem_map]
  exact decodeSample_encodeSample_close _
    (hmem _ (List.getElem_mem h2)).1 (hmem _ (List.getElem_mem h2)).2

/-- Witness for C2 (amended) at the concrete input `[1/2]`. -/
theorem C2_roundtrip_witness :
    ([(1 : ℚ)/2] ≠ []) ∧ (∀ x ∈ [(1 : ℚ)/2], -1 ≤ x ∧ x ≤ 1) ∧
    ∃ ys, decodeAudioData (float32ToPCMBytes [(1 : ℚ)/2]) = some ys ∧
      ys.length = [(1 : ℚ)/2].length ∧
      ∀ i, (h1 : i < ys.length) → (h2 : i < [(1 : ℚ)/2].length) →
        |ys.get ⟨i, h1⟩ - [(1 : ℚ)/2].get ⟨i, h2⟩| < 1 / 32767 :=
  ⟨by simp, by norm_num, C2_roundtrip [(1 : ℚ)/2] (by simp) (by norm_num)⟩

/-! ## Claim C7 -/

/-- C7: decoding any odd-length byte buffer fails (the `RangeError` raised
by the out-of-bounds final `getInt16` read, i.e. the `MalformedAudioData`
condition, modelled as `none`) rather than silently truncating the buffer
to an even number of bytes. -/
theorem C7_odd_length_fails (bytes : List ℕ) (h : bytes.length % 2 = 1) :
    decodeAudioData bytes = none :=
  decodeAudioData_odd_fails bytes h

/-- Witness for C7 at the concrete odd-length buffer `[0, 0, 0]`. -/
theorem C7_odd_length_fails_witness :
    [0, 0, 0].length % 2 = 1 ∧ decodeAudioData [0, 0, 0] = none :=
  ⟨by decide, C7_odd_length_fails [0, 0, 0] (by decide)⟩

/-! ## Live client state machine (`src/services/liveClient.ts`)

The `LiveClient` class is modelled as a record of its mutable fields;
nullable handles (`session`, `mediaStream`, `processor`, the two audio
contexts) become `Bool` ("handle present"), and the reads of
`outputAudioContext.currentTime` become an explicit `now : ℚ` input of each
operation. Every operation returns the updated state together with the list
of externally visible effects it performs, in program order; a callback that
the source protects with `try`/`catch` is a total Lean function (nothing to
throw), with the would-be exception modelled by the `sendOk`/`micOk` flags.
-/

inductive Status where
  | connected
  | disconnected
  | error
deriving DecidableEq, Repr

/-- One scheduled `AudioBufferSourceNode`: its `start(...)` argument and its
buffer's duration (`numSamples / 24000`, the context sample rate). -/
structure Source where
  startTime : ℚ
  duration : ℚ
deriving DecidableEq, Repr

inductive Effect where
  | statusChange (s : Status)
  | sessionClose
  | trackStop
  | inputCtxClose
  | outputCtxClose
  | sourceStart (src : Source)
  | sourceStop (src : Source)
  | sendAudio (bytes : List ℕ)
  | sendVideo (bytes : List ℕ)
  | logDecodeError
deriving DecidableEq, Repr

structure LiveClient where
  session : Bool
  inputAudioContext : Bool
  outputAudioContext : Bool
  nextStartTime : ℚ
  audioQueue : List Source
  mediaStream : Bool
  processor : Bool
  isConnected : Bool
deriving DecidableEq, Repr

/-- `stopAudioQueue` (`liveClient.ts` lines 119–124): stop every queued
source, then empty the queue. -/
def stopAudioQueue (st : LiveClient) : LiveClient × List Effect :=
  ({ st with audioQueue := [] }, st.audioQueue.map Effect.sourceStop)

/-- `disconnect` (`liveClient.ts` lines 80–117): clear the connected flag,
close and null the session, stop the mic tracks, detach the processor,
close both audio contexts, stop the audio queue, and finally report
`'disconnected'` — unconditionally, on every call. -/
def disconnect (st : LiveClient) : LiveClient × List Effect :=
  ({ st with isConnected := false, session := false, mediaStream := false,
             processor := false, inputAudioContext := false,
             audioQueue := [], outputAudioContext := false },
   (if st.session then [Effect.sessionClose] else []) ++
   (if st.mediaStream then [Effect.trackStop] else []) ++
   (if st.inputAudioContext then [Effect.inputCtxClose] else []) ++
   st.audioQueue.map Effect.sourceStop ++
   (if st.outputAudioContext then [Effect.outputCtxClose] else []) ++
   [Effect.statusChange Status.disconnected])

/-- The server message shape `handleServerMessage` inspects:
`serverContent?.interrupted` and
`serverContent?.modelTurn?.parts?[0]?.inlineData?.data` (the latter carried
here as the bytes its base64 payload decodes to — `base64ToUint8Array` is an
exact bijection on valid payloads). -/
structure ServerContent where
  interrupted : Bool
  audioData : Option (List ℕ)
deriving DecidableEq, Repr

structure LiveServerMessage where
  serverContent : Option ServerContent
deriving DecidableEq, Repr

def msgInterrupted (m : LiveServerMessage) : Bool :=
  match m.serverContent with
  | some c => c.interrupted
  | none => false

def msgAudioData (m : LiveServerMessage) : Option (List ℕ) :=
  match m.serverContent with
  | some c => c.audioData
  | none => none

/-- `handleServerMessage` (`liveClient.ts` lines 197–230). `now` is the
value of `outputAudioContext.currentTime` while the message is handled.
An interruption stops and clears the queue and resets the cursor to `now`.
An audio payload is decoded (a decode or base64 failure is caught and
logged, leaving the state untouched), scheduled at
`max nextStartTime now`, appended to the queue, and the cursor advanced by
the buffer's duration `numSamples / 24000`. -/
def handleServerMessage (st : LiveClient) (message : LiveServerMessage) (now : ℚ) :
    LiveClient × List Effect :=
  if msgInterrupted message then
    if st.outputAudioContext then
      ({ (stopAudioQueue st).1 with nextStartTime := now }, (stopAudioQueue st).2)
    else
      stopAudioQueue st
  else
    match msgAudioData message with
    | some audioData =>
      if st.outputAudioContext then
        match decodeAudioData audioData with
        | some samples =>
          ({ st with
               audioQueue := st.audioQueue ++
                 [⟨max st.nextStartTime now, (samples.length : ℚ) / 24000⟩],
               nextStartTime := max st.nextStartTime now + (samples.length : ℚ) / 24000 },
           [Effect.sourceStart ⟨max st.nextStartTime now, (samples.length : ℚ) / 24000⟩])
        | none => (st, [Effect.logDecodeError])
      else (st, [])
    | none => (st, [])

/-- The `onaudioprocess` capture callback installed by `startAudioInput`
(`liveClient.ts` lines 148–164): bail out silently unless both the session
handle and the connected flag are live, otherwise encode the block and send
it; `sendOk = false` models `session.sendRealtimeInput` throwing, which the
callback catches and ignores. -/
def onaudioprocess (st : LiveClient) (inputData : List ℚ) (sendOk : Bool) :
    LiveClient × List Effect :=
  if !st.session || !st.isConnected then (st, [])
  else if sendOk then (st, [Effect.sendAudio (float32ToPCMBytes inputData)])
  else (st, [])

/-- `sendVideoFrame` (`liveClient.ts` lines 180–195): same guard and same
swallowed-exception pattern as the audio callback (the data-URL prefix
stripping does not affect the properties verified here, so `frame` is the
payload bytes). -/
def sendVideoFrame (st : LiveClient) (frame : List ℕ) (sendOk : Bool) :
    LiveClient × List Effect :=
  if !st.session || !st.isConnected then (st, [])
  else if sendOk then (st, [Effect.sendVideo frame])
  else (st, [])

/-- `startAudioInput` (`liveClient.ts` lines 126–178): bail out unless
connected with a session; create the input context, then request the
microphone (`micOk = false` models `getUserMedia` rejecting: permission
denied or hardware busy), wire up the processor on success — and on failure
the `catch` block logs and calls `disconnect()`. -/
def startAudioInput (st : LiveClient) (micOk : Bool) : LiveClient × List Effect :=
  if !st.isConnected || !st.session then (st, [])
  else if micOk then
    ({ st with inputAudioContext := true, mediaStream := true, processor := true }, [])
  else
    disconnect { st with inputAudioContext := true }

/-- The `onerror` transport callback installed by `connect`
(`liveClient.ts` lines 65–69): report `'error'`, then run `disconnect()`
(which itself reports `'disconnected'`). -/
def onerror (st : LiveClient) : LiveClient × List Effect :=
  (Prod.fst (disconnect st), Effect.statusChange Status.error :: (disconnect st).2)

def isTerminalStatus (e : Effect) : Bool :=
  match e with
  | Effect.statusChange Status.disconnected => true
  | Effect.statusChange Status.error => true
  | _ => false

/-- Number of terminal (`disconnected` or `error`) status deliveries in a
run of effects. -/
def terminalCount (effs : List Effect) : ℕ :=
  (effs.filter isTerminalStatus).length

/-- A fully connected client with an empty queue and cursor at 0, as left
by a successful `connect`/`onopen`/`startAudioInput` round. -/
def connectedClient : LiveClient :=
  { session := true, inputAudioContext := true, outputAudioContext := true,
    nextStartTime := 0, audioQueue := [], mediaStream := true,
    processor := true, isConnected := true }

/-- A server message carrying one audio payload. -/
def audioMsg (bytes : List ℕ) : LiveServerMessage :=
  ⟨some ⟨false, some bytes⟩⟩

/-- A server message with the interruption flag set. -/
def interruptMsg : LiveServerMessage :=
  ⟨some ⟨true, none⟩⟩

/-- Feed a sequence of inbound audio chunks (each tagged with the output
clock's reading at its arrival) through `handleServerMessage`, collecting
the effects in order. -/
def runChunks (st : LiveClient) : List (ℚ × List ℕ) → LiveClient × List Effect
  | [] => (st, [])
  | (now, bytes) :: rest =>
    ((runChunks (handleServerMessage st (audioMsg bytes) now).1 rest).1,
     (handleServerMessage st (audioMsg bytes) now).2 ++
       (runChunks (handleServerMessage st (audioMsg bytes) now).1 rest).2)

/-- The start times of the playback sources scheduled in a run of effects,
in scheduling order. -/
def startsOf (effs : List Effect) : List ℚ :=
  effs.filterMap fun e =>
    match e with
    | Effect.sourceStart src => some src.startTime
    | _ => none

/-- The start-time sequence the scheduler computes for a chunk sequence. -/
def chunkStarts (st : LiveClient) (chunks : List (ℚ × List ℕ)) : List ℚ :=
  startsOf (runChunks st chunks).2

/-- The chunks decode successfully and arrive faster than playback consumes
them: each arrival happens no later than the cursor standing when it is
handled. -/
def ChunksOk (st : LiveClient) : List (ℚ × List ℕ) → Prop
  | [] => True
  | (now, bytes) :: rest =>
    (decodeAudioData bytes).isSome = true ∧ now ≤ st.nextStartTime ∧
      ChunksOk (handleServerMessage st (audioMsg bytes) now).1 rest

/-- Modelled from the spec: the gapless schedule, written from the spec's
recurrence `startTime[i] = startTime[i-1] + duration[i-1]` with
`startTime[0]` the initial cursor — the reference the code's computed start
times are compared against. -/
def gaplessStarts (t : ℚ) : List ℚ → List ℚ
  | [] => []
  | d :: ds => t :: gaplessStarts (t + d) ds

/-- The durations of a chunk sequence's decoded buffers. -/
def chunkDurations (chunks : List (ℚ × List ℕ)) : List ℚ :=
  chunks.map fun c => (((decodeAudioData c.2).getD []).length : ℚ) / 24000

/-! ### State-machine lemmas -/

theorem handleServerMessage_audio (st : LiveClient) (now : ℚ)
    (bytes : List ℕ) (samples : List ℚ)
    (hctx : st.outputAudioContext = true)
    (hdec : decodeAudioData bytes = some samples) :
    handleServerMessage st (audioMsg bytes) now =
      ({ st with
           audioQueue := st.audioQueue ++
             [⟨max st.nextStartTime now, (samples.length : ℚ) / 24000⟩],
           nextStartTime := max st.nextStartTime now + (samples.length : ℚ) / 24000 },
       [Effect.sourceStart ⟨max st.nextStartTime now, (samples.length : ℚ) / 24000⟩]) := by
  unfold handleServerMessage
  simp [audioMsg, msgInterrupted, msgAudioData, hctx, hdec]

theorem handleServerMessage_decode_error (st : LiveClient) (now : ℚ)
    (bytes : List ℕ)
    (hctx : st.outputAudioContext = true)
    (hdec : decodeAudioData bytes = none) :
    handleServerMessage st (audioMsg bytes) now = (st, [Effect.logDecodeError]) := by
  unfold handleServerMessage
  simp [audioMsg, msgInterrupted, msgAudioData, hctx, hdec]

theorem handleServerMessage_interrupt (st : LiveClient) (now : ℚ)
    (hctx : st.outputAudioContext = true) :
    handleServerMessage st interruptMsg now =
      ({ st with audioQueue := [], nextStartTime := now },
       st.audioQueue.map Effect.sourceStop) := by
  unfold handleServerMessage
  simp [interruptMsg, msgInterrupted, stopAudioQueue, hctx]

theorem gaplessStarts_chain (t : ℚ) (ds : List ℚ) (h : ∀ d ∈ ds, 0 ≤ d) :
    List.Chain' (· ≤ ·) (gaplessStarts t ds) := by
  induction ds generalizing t with
  | nil => simp [gaplessStarts]
  | cons d ds ih =>
    have hd : 0 ≤ d := h d (List.mem_cons_self d ds)
    have hrest := ih (t + d) (fun x hx => h x (List.mem_cons_of_mem d hx))
    cases ds with
    | nil => simp [gaplessStarts]
    | cons d' ds' =>
      refine List.chain'_cons.mpr ⟨by simp [gaplessStarts]; linarith, hrest⟩

theorem chunkStarts_eq (st : LiveClient) (chunks : List (ℚ × List ℕ))
    (hctx : st.outputAudioContext = true) (hok : ChunksOk st chunks) :
    chunkStarts st chunks = gaplessStarts st.nextStartTime (chunkDurations chunks) := by
  induction chunks generalizing st with
  | nil => rfl
  | cons c rest ih =>
    obtain ⟨now, bytes⟩ := c
    obtain ⟨hdec, hle, hrest⟩ := hok
    obtain ⟨samples, hs⟩ := Option.isSome_iff_exists.mp hdec
    have hstep := handleServerMessage_audio st now bytes samples hctx hs
    have hmax : max st.nextStartTime now = st.nextStartTime := max_eq_left hle
    have hctx' : (handleServerMessage st (audioMsg bytes) now).1.outputAudioContext = true := by
      rw [hstep]
      exact hctx
    have := ih (handleServerMessage st (audioMsg bytes) now).1 hctx' hrest
    simp only [chunkStarts, runChunks, startsOf, List.filterMap_append] at this ⊢
    rw [hstep] at this ⊢
    simp only [List.filterMap] at *
    simp only [chunkDurations, List.map_cons, gaplessStarts, hs, Option.getD_some]
    rw [hmax] at *
    simp only [chunkDurations] at this
    rw [this]
    rfl

/-- The two-byte zero chunk decodes to the single zero sample. -/
theorem decodeAudioData_pair_zero : decodeAudioData [0, 0] = some [0] := by
  norm_num [decodeAudioData, decodeAudioDataLoop, getInt16LE, decodeSample]

/-- A connected client with one queued source and the cursor at 1. -/
def queuedClient : LiveClient :=
  { connectedClient with audioQueue := [⟨0, 1⟩], nextStartTime := 1 }

/-! ## Claim C1 -/

/-- C1: while the output clock exists, each inbound audio chunk is
scheduled to start at `max nextStartTime now`, its source is appended to
the queue, and the cursor becomes that start time plus the decoded
buffer's duration; consequently, for chunks that arrive faster than
playback consumes them, the start-time sequence is non-decreasing and
equals the gapless schedule `start[i] = start[i-1] + duration[i-1]`. -/
theorem C1_gapless_scheduling :
    (∀ (st : LiveClient) (now : ℚ) (bytes : List ℕ) (samples : List ℚ),
      st.outputAudioContext = true →
      decodeAudioData bytes = some samples →
      handleServerMessage st (audioMsg bytes) now =
        ({ st with
             audioQueue := st.audioQueue ++
               [⟨max st.nextStartTime now, (samples.length : ℚ) / 24000⟩],
             nextStartTime := max st.nextStartTime now + (samples.length : ℚ) / 24000 },
         [Effect.sourceStart ⟨max st.nextStartTime now, (samples.length : ℚ) / 24000⟩])) ∧
    (∀ (st : LiveClient) (chunks : List (ℚ × List ℕ)),
      st.outputAudioContext = true →
      ChunksOk st chunks →
      chunkStarts st chunks = gaplessStarts st.nextStartTime (chunkDurations chunks) ∧
      List.Chain' (· ≤ ·) (chunkStarts st chunks)) := by
  refine ⟨handleServerMessage_audio, fun st chunks hctx hok => ?_⟩
  have he := chunkStarts_eq st chunks hctx hok
  refine ⟨he, ?_⟩
  rw [he]
  apply gaplessStarts_chain
  intro d hd
  simp only [chunkDurations, List.mem_map] at hd
  obtain ⟨c, _, rfl⟩ := hd
  positivity

/-- Witness for C1: one zero chunk arriving at clock 0 on a fresh
connected client is scheduled at 0 and advances the cursor by its
duration `1/24000`. -/
theorem C1_gapless_scheduling_witness :
    handleServerMessage connectedClient (audioMsg [0, 0]) 0 =
      ({ connectedClient with
           audioQueue := [⟨0, 1 / 24000⟩], nextStartTime := 1 / 24000 },
       [Effect.sourceStart ⟨0, 1 / 24000⟩]) ∧
    chunkStarts connectedClient [(0, [0, 0])] = [0] ∧
    List.Chain' (· ≤ ·) (chunkStarts connectedClient [(0, [0, 0])]) := by
  have hok : ChunksOk connectedClient [(0, [0, 0])] := by
    show (decodeAudioData [0, 0]).isSome = true ∧ (0 : ℚ) ≤ _ ∧ _
    rw [decodeAudioData_pair_zero]
    exact ⟨rfl, le_refl _, trivial⟩
  have h1 := C1_gapless_scheduling.1 connectedClient 0 [0, 0] [0]
    rfl decodeAudioData_pair_zero
  have h2 := C1_gapless_scheduling.2 connectedClient [(0, [0, 0])] rfl hok
  refine ⟨?_, ?_, h2.2⟩
  · rw [h1]
    norm_num [connectedClient]
  · rw [h2.1]
    norm_num [connectedClient, chunkDurations, gaplessStarts, decodeAudioData_pair_zero]

/-! ## Claim C3 -/

/-- C3: an interruption event stops every queued (scheduled or playing)
playback source, empties the queue, and resets the cursor to the output
clock's current reading; any chunk scheduled afterwards starts at or after
that reset time. -/
theorem C3_interruption :
    (∀ (st : LiveClient) (now : ℚ),
      st.outputAudioContext = true →
      handleServerMessage st interruptMsg now =
        ({ st with audioQueue := [], nextStartTime := now },
         st.audioQueue.map Effect.sourceStop)) ∧
    (∀ (st : LiveClient) (now now' : ℚ) (bytes : List ℕ) (src : Source),
      st.outputAudioContext = true →
      Effect.sourceStart src ∈
        (handleServerMessage (handleServerMessage st interruptMsg now).1
          (audioMsg bytes) now').2 →
      now ≤ src.startTime) := by
  refine ⟨handleServerMessage_interrupt, fun st now now' bytes src hctx hmem => ?_⟩
  rw [handleServerMessage_interrupt st now hctx] at hmem
  dsimp only at hmem
  have hctx1 :
      ({ st with audioQueue := [], nextStartTime := now } : LiveClient).outputAudioContext = true :=
    hctx
  cases hdec : decodeAudioData bytes with
  | none =>
    rw [handleServerMessage_decode_error _ _ _ hctx1 hdec] at hmem
    simp at hmem
  | some samples =>
    rw [handleServerMessage_audio _ _ _ samples hctx1 hdec] at hmem
    simp only [List.mem_singleton, Effect.sourceStart.injEq] at hmem
    subst hmem
    exact le_max_left _ _

/-- Witness for C3: interrupting `queuedClient` at clock 5 stops its one
queued source and resets the cursor to 5; the next chunk (arriving at
clock 6) starts at 6 ≥ 5. -/
theorem C3_interruption_witness :
    handleServerMessage queuedClient interruptMsg 5 =
      ({ queuedClient with audioQueue := [], nextStartTime := 5 },
       [Effect.sourceStop ⟨0, 1⟩]) ∧
    (5 : ℚ) ≤ Source.startTime ⟨6, 1 / 24000⟩ := by
  have h1 := C3_interruption.1 queuedClient 5 rfl
  constructor
  · rw [h1]
    rfl
  · refine C3_interruption.2 queuedClient 5 6 [0, 0] ⟨6, 1 / 24000⟩ rfl ?_
    rw [h1]
    rw [handleServerMessage_audio _ _ _ [0] rfl decodeAudioData_pair_zero]
    norm_num [max_def]

/-! ## Claim C4 -/

/-- C4 fails on the code: `disconnect()` unconditionally ends by reporting
`'disconnected'`, so two successive `disconnect()` calls deliver two
terminal statuses, and the transport error path (`onerror` reports
`'error'` and then calls `disconnect()`) also delivers two — never exactly
one per connect() attempt. -/
theorem C4_double_terminal_status :
    terminalCount ((disconnect connectedClient).2 ++
      (disconnect (disconnect connectedClient).1).2) = 2 ∧
    terminalCount (onerror connectedClient).2 = 2 :=
  ⟨rfl, rfl⟩

/-! ## Claim C5 -/

/-- One operation on a live session, tagged with the environment inputs the
source reads while handling it (output clock, callback payloads, failure
flags). -/
inductive Op where
  | message (m : LiveServerMessage) (now : ℚ)
  | audioBlock (inputData : List ℚ) (sendOk : Bool)
  | videoFrame (frame : List ℕ) (sendOk : Bool)
  | micStart (micOk : Bool)
  | hangUp

/-- The state part of executing one operation. -/
def step (st : LiveClient) : Op → LiveClient
  | Op.message m now => (handleServerMessage st m now).1
  | Op.audioBlock d ok => (onaudioprocess st d ok).1
  | Op.videoFrame f ok => (sendVideoFrame st f ok).1
  | Op.micStart ok => (startAudioInput st ok).1
  | Op.hangUp => (disconnect st).1

/-- Whether the operation is an interruption event. -/
def opResets (op : Op) : Bool :=
  match op with
  | Op.message m _ => msgInterrupted m
  | _ => false

theorem disconnect_nextStartTime (st : LiveClient) :
    (disconnect st).1.nextStartTime = st.nextStartTime := rfl

theorem onaudioprocess_nextStartTime (st : LiveClient) (d : List ℚ) (ok : Bool) :
    (onaudioprocess st d ok).1.nextStartTime = st.nextStartTime := by
  unfold onaudioprocess
  split
  · rfl
  · split <;> rfl

theorem sendVideoFrame_nextStartTime (st : LiveClient) (f : List ℕ) (ok : Bool) :
    (sendVideoFrame st f ok).1.nextStartTime = st.nextStartTime := by
  unfold sendVideoFrame
  split
  · rfl
  · split <;> rfl

theorem startAudioInput_nextStartTime (st : LiveClient) (ok : Bool) :
    (startAudioInput st ok).1.nextStartTime = st.nextStartTime := by
  unfold startAudioInput
  split
  · rfl
  · split <;> rfl

/-- C5: across every operation of a live session the cursor never
decreases, except that an interruption event resets it to the output
clock's current reading — a value it is then (trivially) at or above;
consequently over any interruption-free operation sequence the cursor is
monotonically non-decreasing. -/
theorem C5_cursor_monotone :
    (∀ (st : LiveClient) (op : Op),
      opResets op = false → st.nextStartTime ≤ (step st op).nextStartTime) ∧
    (∀ (st : LiveClient) (m : LiveServerMessage) (now : ℚ),
      msgInterrupted m = true → st.outputAudioContext = true →
      (step st (Op.message m now)).nextStartTime = now ∧
      now ≤ (step st (Op.message m now)).nextStartTime) ∧
    (∀ (st : LiveClient) (ops : List Op),
      (∀ op ∈ ops, opResets op = false) →
      st.nextStartTime ≤ (ops.foldl step st).nextStartTime) := by
  have hstep : ∀ (st : LiveClient) (op : Op),
      opResets op = false → st.nextStartTime ≤ (step st op).nextStartTime := by
    intro st op hop
    cases op with
    | message m now =>
      simp only [opResets] at hop
      simp only [step]
      unfold handleServerMessage
      rw [hop]
      simp only [Bool.false_eq_true, if_false]
      cases hA : msgAudioData m with
      | none => simp
      | some audioData =>
        simp only
        by_cases hctx : st.outputAudioContext
        · simp only [hctx, if_true]
          cases hdec : decodeAudioData audioData with
          | none => simp
          | some samples =>
            simp only
            have hd : (0 : ℚ) ≤ (samples.length : ℚ) / 24000 := by positivity
            have := le_max_left st.nextStartTime now
            linarith
        · simp [hctx]
    | audioBlock d ok => exact le_of_eq (onaudioprocess_nextStartTime st d ok).symm
    | videoFrame f ok => exact le_of_eq (sendVideoFrame_nextStartTime st f ok).symm
    | micStart ok => exact le_of_eq (startAudioInput_nextStartTime st ok).symm
    | hangUp => exact le_of_eq rfl
  refine ⟨hstep, ?_, ?_⟩
  · intro st m now hm hctx
    have hres : (step st (Op.message m now)).nextStartTime = now := by
      simp only [step]
      unfold handleServerMessage
      rw [hm]
      simp [hctx, stopAudioQueue]
    exact ⟨hres, le_of_eq hres.symm⟩
  · intro st ops hall
    induction ops generalizing st with
    | nil => simp
    | cons op rest ih =>
      simp only [List.foldl_cons]
      exact (hstep st op (hall op (List.mem_cons_self op rest))).trans
        (ih (step st op) fun o ho => hall o (List.mem_cons_of_mem op ho))

/-- Witness for C5: a non-interrupting chunk does not decrease the cursor;
an interruption at clock 7 resets the cursor of `queuedClient` to exactly 7;
a hang-up leaves it unchanged. -/
theorem C5_cursor_monotone_witness :
    connectedClient.nextStartTime ≤
      (step connectedClient (Op.message (audioMsg [0, 0]) 0)).nextStartTime ∧
    (step queuedClient (Op.message interruptMsg 7)).nextStartTime = 7 ∧
    queuedClient.nextStartTime ≤ ([Op.hangUp].foldl step queuedClient).nextStartTime :=
  ⟨C5_cursor_monotone.1 connectedClient (Op.message (audioMsg [0, 0]) 0) rfl,
   (C5_cursor_monotone.2.1 queuedClient interruptMsg 7 rfl rfl).1,
   C5_cursor_monotone.2.2 queuedClient [Op.hangUp]
     (fun op hop => by rcases List.mem_singleton.mp hop with rfl; rfl)⟩

/-! ## Claim C6 -/

/-- C6: a decode failure on one inbound chunk is caught inside the message
handler (which therefore returns normally — no exception propagates) and
logged, and the client state — playback queue and `nextStartTime`
included — is left completely unchanged, so later chunks schedule exactly
as if the bad chunk had never arrived. -/
theorem C6_decode_failure_skipped (st : LiveClient) (bytes : List ℕ) (now : ℚ)
    (hctx : st.outputAudioContext = true)
    (hdec : decodeAudioData bytes = none) :
    handleServerMessage st (audioMsg bytes) now = (st, [Effect.logDecodeError]) :=
  handleServerMessage_decode_error st now bytes hctx hdec

/-- Witness for C6 at the undecodable (odd-length) chunk `[0, 0, 0]`. -/
theorem C6_decode_failure_skipped_witness :
    decodeAudioData [0, 0, 0] = none ∧
    handleServerMessage connectedClient (audioMsg [0, 0, 0]) 2 =
      (connectedClient, [Effect.logDecodeError]) :=
  ⟨decodeAudioData_odd_fails [0, 0, 0] (by decide),
   C6_decode_failure_skipped connectedClient [0, 0, 0] 2 rfl
     (decodeAudioData_odd_fails [0, 0, 0] (by decide))⟩

/-! ## Claim C8 -/

theorem filter_terminal_sourceStop (q : List Source) :
    (q.map Effect.sourceStop).filter isTerminalStatus = [] := by
  induction q with
  | nil => rfl
  | cons s q ih => simp [isTerminalStatus, ih]

theorem disconnect_terminal (st : LiveClient) :
    (disconnect st).2.filter isTerminalStatus =
      [Effect.statusChange Status.disconnected] := by
  unfold disconnect
  simp only [List.filter_append, filter_terminal_sourceStop]
  split_ifs <;> simp [isTerminalStatus]

/-- C8 fails on the code: when microphone acquisition fails, the `catch`
block in `startAudioInput` calls `disconnect()`, tearing down the whole
session (video included) and delivering a terminal `'disconnected'`
status — the session does not continue degraded. -/
theorem C8_counterexample :
    (startAudioInput connectedClient false).1.isConnected = false ∧
    (startAudioInput connectedClient false).1.session = false ∧
    (startAudioInput connectedClient false).2 =
      [Effect.sessionClose, Effect.trackStop, Effect.inputCtxClose,
       Effect.outputCtxClose, Effect.statusChange Status.disconnected] :=
  ⟨rfl, rfl, rfl⟩

/-- C8 (amended): the microphone-acquisition failure is caught (the
handler returns normally, so the client does not crash), but rather than
continuing degraded the client tears the session down via `disconnect()`,
delivering a `'disconnected'` terminal status (and no `'error'`). -/
theorem C8_mic_failure_teardown (st : LiveClient)
    (hconn : st.isConnected = true) (hsess : st.session = true) :
    startAudioInput st false = disconnect { st with inputAudioContext := true } ∧
    (startAudioInput st false).1.isConnected = false ∧
    (startAudioInput st false).1.session = false ∧
    (startAudioInput st false).2.filter isTerminalStatus =
      [Effect.statusChange Status.disconnected] := by
  have h : startAudioInput st false = disconnect { st with inputAudioContext := true } := by
    unfold startAudioInput
    rw [hconn, hsess]
    rfl
  refine ⟨h, ?_, ?_, ?_⟩
  · rw [h]; rfl
  · rw [h]; rfl
  · rw [h]
    exact disconnect_terminal _

/-- Witness for C8 (amended) on the fully connected client. -/
theorem C8_mic_failure_teardown_witness :
    startAudioInput connectedClient false =
      disconnect { connectedClient with inputAudioContext := true } ∧
    (startAudioInput connectedClient false).2.filter isTerminalStatus =
      [Effect.statusChange Status.disconnected] :=
  ⟨(C8_mic_failure_teardown connectedClient rfl rfl).1,
   (C8_mic_failure_teardown connectedClient rfl rfl).2.2.2⟩

/-! ## Claim C9 -/

/-- C9: a send attempted on a channel that has already begun closing
(session handle cleared or connected flag false) is a silent no-op for
both the microphone capture callback and `sendVideoFrame`; and even on a
live channel a throwing `sendRealtimeInput` is swallowed by the
`try`/`catch` — the callbacks are total and return with the state
unchanged, so no exception ever escapes into the capture callback. -/
theorem C9_send_noop :
    (∀ (st : LiveClient) (inputData : List ℚ) (sendOk : Bool),
      st.session = false ∨ st.isConnected = false →
      onaudioprocess st inputData sendOk = (st, [])) ∧
    (∀ (st : LiveClient) (frame : List ℕ) (sendOk : Bool),
      st.session = false ∨ st.isConnected = false →
      sendVideoFrame st frame sendOk = (st, [])) ∧
    (∀ (st : LiveClient) (inputData : List ℚ),
      onaudioprocess st inputData false = (st, [])) ∧
    (∀ (st : LiveClient) (frame : List ℕ),
      sendVideoFrame st frame false = (st, [])) := by
  refine ⟨?_, ?_, ?_, ?_⟩
  · intro st d ok h
    unfold onaudioprocess
    rcases h with h | h <;> simp [h]
  · intro st f ok h
    unfold sendVideoFrame
    rcases h with h | h <;> simp [h]
  · intro st d
    unfold onaudioprocess
    split
    · rfl
    · rfl
  · intro st f
    unfold sendVideoFrame
    split
    · rfl
    · rfl

/-- Witness for C9: sends after a disconnect, and failing sends while
connected, are all silent no-ops. -/
theorem C9_send_noop_witness :
    onaudioprocess (disconnect connectedClient).1 [0] true =
      ((disconnect connectedClient).1, []) ∧
    sendVideoFrame (disconnect connectedClient).1 [0] true =
      ((disconnect connectedClient).1, []) ∧
    onaudioprocess connectedClient [0] false = (connectedClient, []) ∧
    sendVideoFrame connectedClient [0] false = (connectedClient, []) :=
  ⟨C9_send_noop.1 _ [0] true (Or.inl rfl),
   C9_send_noop.2.1 _ [0] true (Or.inl rfl),
   C9_send_noop.2.2.1 connectedClient [0],
   C9_send_noop.2.2.2 connectedClient [0]⟩

/-! ## Claim C10 -/

/-- C10: after `disconnect()` returns, every resource handle is cleared,
the connected flag is false and the playback queue is empty; consequently
any later `sendVideoFrame` call or late microphone callback returns
immediately without sending anything. -/
theorem C10_disconnect_quiescent (st : LiveClient) :
    (disconnect st).1.session = false ∧
    (disconnect st).1.mediaStream = false ∧
    (disconnect st).1.processor = false ∧
    (disconnect st).1.inputAudioContext = false ∧
    (disconnect st).1.outputAudioContext = false ∧
    (disconnect st).1.isConnected = false ∧
    (disconnect st).1.audioQueue = [] ∧
    (∀ (frame : List ℕ) (sendOk : Bool),
      sendVideoFrame (disconnect st).1 frame sendOk = ((disconnect st).1, [])) ∧
    (∀ (inputData : List ℚ) (sendOk : Bool),
      onaudioprocess (disconnect st).1 inputData sendOk = ((disconnect st).1, [])) := by
  refine ⟨rfl, rfl, rfl, rfl, rfl, rfl, rfl, ?_, ?_⟩
  · intro f ok
    rfl
  · intro d ok
    rfl

end BlindEye
